import Mathlib

/-!
Verification of the FitLog browser-side scripts.

The definitions below are a shallow embedding of the four scripts under
`fitlog/static/js/`: the drag-and-drop reorder controller and row removal of
`edit.js`, the plan-delete flow of `index.js`, and the sets-input clamp of
`record.js`.  DOM rows are modelled as list elements, geometry
(`getBoundingClientRect`) as an environment function assigning each row a top
coordinate and a height, and `fetch` outcomes as a small inductive type
(network error, or a response carrying its `ok` flag).
-/

namespace FitLog

/-- A `tr.dnd-row` table row.  `id` is the exercise id carried by the row's
removal affordance, `hasPosInput` records whether the row contains an
`input[name="position[]"]` element, `posValue` is that input's current value,
and `dragging` models the presence of the `is-dragging` CSS class. -/
structure Row where
  id : Nat
  hasPosInput : Bool
  posValue : Nat
  dragging : Bool
deriving DecidableEq, Repr

/-- `updatePositions` of edit.js: `forEach((tr, i) => { const pos =
tr.querySelector('input[name="position[]"]'); if (pos) pos.value = i + 1; })`,
rendered as a recursion carrying the running index `i`. -/
def updatePositionsFrom (i : Nat) : List Row → List Row
  | [] => []
  | r :: rs =>
    (if r.hasPosInput then { r with posValue := i + 1 } else r) ::
      updatePositionsFrom (i + 1) rs

/-- `updatePositions()` walks all `tr.dnd-row` rows from index 0. -/
def updatePositions (rows : List Row) : List Row :=
  updatePositionsFrom 0 rows

/-- A row's box as reported by `getBoundingClientRect()`: `(top, height)`.
Geometry is an input of each dragover event, supplied by layout. -/
def mid (box : Row → ℚ × ℚ) (r : Row) : ℚ :=
  (box r).1 + (box r).2 / 2

/-- One step of the `reduce` inside `getDragAfterElement`: keep the candidate
with the greatest strictly negative `offset = y - box.top - box.height / 2`;
the initial accumulator `{ offset: Number.NEGATIVE_INFINITY }` (no element
field) is modelled as `none`, and a finite offset compares greater than it. -/
def gdaeStep (box : Row → ℚ × ℚ) (y : ℚ) (closest : Option (ℚ × Row))
    (child : Row) : Option (ℚ × Row) :=
  let offset : ℚ := y - (box child).1 - (box child).2 / 2
  match closest with
  | none => if offset < 0 then some (offset, child) else none
  | some (o, e) =>
    if offset < 0 ∧ o < offset then some (offset, child) else some (o, e)

/-- `getDragAfterElement(container, y)` of edit.js: the `reduce` of
`gdaeStep` over the rows not carrying `is-dragging`; the final accumulator's
`.element` field is the result (`none` when no candidate ever qualified,
matching the `undefined` element of the initial accumulator). -/
def getDragAfterElement (els : List Row) (box : Row → ℚ × ℚ) (y : ℚ) :
    Option Row :=
  (els.foldl (gdaeStep box y) none).map Prod.snd

/-- `container.insertBefore(d, a)`: relocate `d` immediately before the node
`a`.  In the DOM `a` is a node reference; here it is the first list element
equal to `a` (the two coincide on the states the controller produces, where
`a` is drawn from the list itself). -/
def insertBeforeFirst (d a : Row) : List Row → List Row
  | [] => [d]
  | x :: xs => if x = a then d :: x :: xs else x :: insertBeforeFirst d a xs

/-- The dragover handler of edit.js: recompute the after-element from the
rows not carrying `is-dragging`, look up the dragged row
(`querySelector("tr.dnd-row.is-dragging")`, i.e. the first flagged row; the
handler returns unchanged when there is none), then either `appendChild` it
(after == null) or `insertBefore` it. -/
def dragover (rows : List Row) (box : Row → ℚ × ℚ) (y : ℚ) : List Row :=
  let after := getDragAfterElement (rows.filter fun r => !r.dragging) box y
  match rows.find? (fun r => r.dragging) with
  | none => rows
  | some dragging =>
    match after with
    | none => rows.erase dragging ++ [dragging]
    | some a => insertBeforeFirst dragging a (rows.erase dragging)

/-- The dragstart handler: mark the targeted row (here: the row at index `i`)
with the `is-dragging` class; a target outside the list leaves it unchanged. -/
def dragstart : List Row → Nat → List Row
  | [], _ => []
  | r :: rs, 0 => { r with dragging := true } :: rs
  | r :: rs, n + 1 => r :: dragstart rs n

/-- `dragEl.classList.remove("is-dragging")`: clear the flag on the dragged
node.  `dragEl` is the module-level reference set at dragstart; since it is
the unique flagged row, it is the first flagged row of the list, and when
`dragEl` is null no row is flagged and the list is unchanged. -/
def clearFirstDragging : List Row → List Row
  | [] => []
  | r :: rs =>
    if r.dragging then { r with dragging := false } :: rs
    else r :: clearFirstDragging rs

/-- The dragend handler: drop the `is-dragging` class, then `updatePositions()`. -/
def dragend (rows : List Row) : List Row :=
  updatePositions (clearFirstDragging rows)

/-- One dragover event's inputs: the geometry of the rows at that instant and
the pointer's `clientY`. -/
def DragEvent := (Row → ℚ × ℚ) × ℚ

/-- A complete drag sequence: dragstart on the row at index `i`, a list of
dragover events, then dragend. -/
def runDrag (rows : List Row) (i : Nat) (events : List DragEvent) : List Row :=
  dragend (events.foldl (fun st ev => dragover st ev.1 ev.2) (dragstart rows i))

/-- Outcome of an `await fetch(...)`: the promise rejects (network error) or
resolves to a response whose `ok` flag is recorded. -/
inductive FetchRes
  | netErr
  | resp (ok : Bool)
deriving DecidableEq, Repr

/-- Observable actions of the row-removal click handler of edit.js. -/
inductive REv
  | alertNoUrl
  | requestRemove
  | reload
  | alertRemoveFailed
deriving DecidableEq, Repr

/-- The removal click handler of edit.js: missing `data-remove-url` alerts and
returns; an unconfirmed `confirm` returns; otherwise a POST to the removal
endpoint is awaited with no try/catch, so a rejected fetch ends the handler
silently, `res.ok` triggers `location.reload()`, and a non-ok response alerts.
The handler contains no statement mutating the row list, so the rows are
returned as received (a reload refetches the page; it is recorded as an event,
not a mutation). -/
def removalClick (rows : List Row) (hasUrl confirmed : Bool) (res : FetchRes) :
    List Row × List REv :=
  if !hasUrl then (rows, [REv.alertNoUrl])
  else if !confirmed then (rows, [])
  else
    match res with
    | .netErr => (rows, [REv.requestRemove])
    | .resp true => (rows, [REv.requestRemove, REv.reload])
    | .resp false => (rows, [REv.requestRemove, REv.alertRemoveFailed])

/-- Observable actions of the `btnDelete` click handler of index.js. -/
inductive DEv
  | alertSelectPlan
  | requestDelete
  | reload
  | alertDeleteFailed
  | alertNetwork
deriving DecidableEq, Repr

/-- The `btnDelete` click handler of index.js: no selected plan alerts and
returns; an unconfirmed `confirm` returns; otherwise the POST to
`/plans/<id>/delete` is awaited inside try/catch: `ok` reloads, non-ok alerts,
and a rejected fetch is caught with a network alert. -/
def deleteClick (hasSelection confirmed : Bool) (res : FetchRes) : List DEv :=
  if !hasSelection then [DEv.alertSelectPlan]
  else if !confirmed then []
  else
    match res with
    | .netErr => [DEv.requestDelete, DEv.alertNetwork]
    | .resp true => [DEv.requestDelete, DEv.reload]
    | .resp false => [DEv.requestDelete, DEv.alertDeleteFailed]

/-- Observable actions of the save-then-add submit handler of edit.js. -/
inductive SEv
  | updatePos
  | disableBtn
  | requestSave
  | requestAdd
  | alertSaveFailed
  | alertAddFailed
  | alertNetwork
  | reload
  | enableBtn
deriving DecidableEq, Repr

/-- The `addForm` submit handler of edit.js: `updatePositions()`, disable the
submit button when present, then inside try/finally: await the save POST
(short-circuiting with an alert when not ok), await the add POST
(short-circuiting with an alert when not ok), then `location.reload()`; a
rejected fetch is caught with a network alert; the finally block re-enables
the button. -/
def submitFlow (hasBtn : Bool) (save add : FetchRes) : List SEv :=
  [SEv.updatePos] ++
  (if hasBtn then [SEv.disableBtn] else []) ++
  (match save with
   | .netErr => [SEv.requestSave, SEv.alertNetwork]
   | .resp false => [SEv.requestSave, SEv.alertSaveFailed]
   | .resp true =>
     match add with
     | .netErr => [SEv.requestSave, SEv.requestAdd, SEv.alertNetwork]
     | .resp false => [SEv.requestSave, SEv.requestAdd, SEv.alertAddFailed]
     | .resp true => [SEv.requestSave, SEv.requestAdd, SEv.reload]) ++
  (if hasBtn then [SEv.enableBtn] else [])

/-- Value of a run of decimal digits, `none` when the run is empty or holds a
non-digit. -/
def parseDigits (cs : List Char) : Option Nat :=
  if cs ≠ [] ∧ cs.all Char.isDigit then
    some (cs.foldl (fun n c => 10 * n + (c.toNat - 48)) 0)
  else none

/-- Models the JavaScript `Number(string)` conversion on the string shapes the
clamp handler's claims exercise: an optional sign followed by decimal digits
converts to that integer, the empty string converts to 0, and any other
string is NaN (`none`).  (Full `Number()` also accepts whitespace, fraction
digits, exponents and hex literals; none of those shapes appear in the
properties settled here.) -/
def jsNumber (s : String) : Option Int :=
  match s.data with
  | [] => some 0
  | '-' :: rest => (parseDigits rest).map fun n => -(n : Int)
  | '+' :: rest => (parseDigits rest).map fun n => (n : Int)
  | cs => (parseDigits cs).map fun n => (n : Int)

/-- `v < b` on a JS number that may be NaN: every comparison with NaN is false. -/
def numLt (v : Option Int) (b : Int) : Bool :=
  match v with
  | none => false
  | some n => n < b

/-- `v > b` on a JS number that may be NaN: every comparison with NaN is false. -/
def numGt (v : Option Int) (b : Int) : Bool :=
  match v with
  | none => false
  | some n => b < n

/-- Body of the input handler of record.js for a sets field:
`const v = Number(el.value || 0); if (v < 0) el.value = 0;
if (v > 99) el.value = 99;` — `el.value || 0` replaces the (falsy) empty
string by the number 0 before conversion, `v` is computed once, and the two
independent `if` statements write the string rendering of the assigned number. -/
def clampSets (value : String) : String :=
  let v : Option Int := if value = "" then some 0 else jsNumber value
  let value1 := if numLt v 0 then "0" else value
  let value2 := if numGt v 99 then "99" else value1
  value2

/-- The document-level input handler of record.js: the body runs only when the
target has a nonempty `name` ending in `"[sets]"`. -/
def onInput (name value : String) : String :=
  if name ≠ "" && name.endsWith "[sets]" then clampSets value else value

/-! ### Concrete rows for witnesses and the spec's scenario -/

/-- Row A of the spec's scenario, at position 1. -/
def rowA : Row := ⟨1, true, 1, false⟩

/-- Row B of the spec's scenario, at position 2. -/
def rowB : Row := ⟨2, true, 2, false⟩

/-- Row C of the spec's scenario, at position 3. -/
def rowC : Row := ⟨3, true, 3, false⟩

/-- The scenario's container contents: rows [A(pos1), B(pos2), C(pos3)]. -/
def demoRows : List Row := [rowA, rowB, rowC]

/-- A concrete layout: the three rows stacked top to bottom, each 10 units
tall, so their vertical midpoints are 5, 15 and 25. -/
def demoBox : Row → ℚ × ℚ := fun r =>
  if r.id = 1 then (0, 10) else if r.id = 2 then (10, 10) else (20, 10)

/-- The expected outcome of the scenario: order [C, A, B] with positions
1, 2, 3. -/
def demoExpected : List Row := [⟨3, true, 1, false⟩, ⟨1, true, 2, false⟩, ⟨2, true, 3, false⟩]

/-! ### Helper lemmas on the reorder controller -/

theorem updatePositionsFrom_length (i : Nat) (l : List Row) :
    (updatePositionsFrom i l).length = l.length := by
  induction l generalizing i with
  | nil => rfl
  | cons r rs ih => simp [updatePositionsFrom, ih]

theorem updatePositionsFrom_getElem? (i j : Nat) (l : List Row) :
    (updatePositionsFrom i l)[j]? =
      l[j]?.map fun r =>
        if r.hasPosInput then { r with posValue := i + j + 1 } else r := by
  induction l generalizing i j with
  | nil => simp [updatePositionsFrom]
  | cons r rs ih =>
    cases j with
    | zero => simp [updatePositionsFrom]
    | succ j =>
      simp only [updatePositionsFrom, List.getElem?_cons_succ, ih (i + 1) j]
      have : i + 1 + j + 1 = i + (j + 1) + 1 := by omega
      rw [this]

theorem map_id_updatePositionsFrom (i : Nat) (l : List Row) :
    (updatePositionsFrom i l).map Row.id = l.map Row.id := by
  induction l generalizing i with
  | nil => rfl
  | cons r rs ih =>
    simp only [updatePositionsFrom, List.map_cons, ih]
    by_cases h : r.hasPosInput <;> simp [h]

theorem map_hasPos_updatePositionsFrom (i : Nat) (l : List Row) :
    (updatePositionsFrom i l).map Row.hasPosInput = l.map Row.hasPosInput := by
  induction l generalizing i with
  | nil => rfl
  | cons r rs ih =>
    simp only [updatePositionsFrom, List.map_cons, ih]
    by_cases h : r.hasPosInput <;> simp [h]

theorem map_id_clearFirstDragging (l : List Row) :
    (clearFirstDragging l).map Row.id = l.map Row.id := by
  induction l with
  | nil => rfl
  | cons r rs ih =>
    by_cases h : r.dragging <;> simp [clearFirstDragging, h, ih]

theorem map_hasPos_clearFirstDragging (l : List Row) :
    (clearFirstDragging l).map Row.hasPosInput = l.map Row.hasPosInput := by
  induction l with
  | nil => rfl
  | cons r rs ih =>
    by_cases h : r.dragging <;> simp [clearFirstDragging, h, ih]

theorem map_id_dragstart (l : List Row) (i : Nat) :
    (dragstart l i).map Row.id = l.map Row.id := by
  induction l generalizing i with
  | nil => rfl
  | cons r rs ih =>
    cases i with
    | zero => simp [dragstart]
    | succ n => simp [dragstart, ih]

theorem map_hasPos_dragstart (l : List Row) (i : Nat) :
    (dragstart l i).map Row.hasPosInput = l.map Row.hasPosInput := by
  induction l generalizing i with
  | nil => rfl
  | cons r rs ih =>
    cases i with
    | zero => simp [dragstart]
    | succ n => simp [dragstart, ih]

theorem insertBeforeFirst_perm (d a : Row) (l : List Row) :
    (insertBeforeFirst d a l).Perm (d :: l) := by
  induction l with
  | nil => exact List.Perm.refl _
  | cons x xs ih =>
    by_cases h : x = a
    · simp [insertBeforeFirst, h]
    · simp only [insertBeforeFirst, if_neg h]
      exact (ih.cons x).trans (List.Perm.swap d x xs)

theorem dragover_perm_helper (rows : List Row) (box : Row → ℚ × ℚ) (y : ℚ) :
    (dragover rows box y).Perm rows := by
  unfold dragover
  cases hfind : rows.find? (fun r => r.dragging) with
  | none => exact List.Perm.refl _
  | some d =>
    have hd : d ∈ rows := List.mem_of_find?_eq_some hfind
    have hperm : (d :: rows.erase d).Perm rows := (List.perm_cons_erase hd).symm
    cases getDragAfterElement (rows.filter fun r => !r.dragging) box y with
    | none => exact (List.perm_append_singleton d (rows.erase d)).trans hperm
    | some a => exact (insertBeforeFirst_perm d a (rows.erase d)).trans hperm

theorem foldDrag_perm (events : List DragEvent) (st : List Row) :
    (events.foldl (fun s ev => dragover s ev.1 ev.2) st).Perm st := by
  induction events generalizing st with
  | nil => exact List.Perm.refl _
  | cons ev evs ih =>
    exact (ih (dragover st ev.1 ev.2)).trans (dragover_perm_helper st ev.1 ev.2)

theorem updatePositionsFrom_map_posValue (i : Nat) (l : List Row)
    (h : ∀ r ∈ l, r.hasPosInput = true) :
    (updatePositionsFrom i l).map Row.posValue = List.range' (i + 1) l.length := by
  induction l generalizing i with
  | nil => rfl
  | cons r rs ih =>
    have hr : r.hasPosInput = true := h r (List.mem_cons_self r rs)
    simp only [updatePositionsFrom, List.map_cons, hr, if_pos, List.length_cons,
      List.range'_succ]
    exact congrArg _ (ih (i + 1) fun x hx => h x (List.mem_cons_of_mem r hx))

theorem clearFirst_dragstart (l : List Row) (i : Nat)
    (h : ∀ r ∈ l, r.dragging = false) :
    clearFirstDragging (dragstart l i) = l := by
  induction l generalizing i with
  | nil => rfl
  | cons r rs ih =>
    have hr : r.dragging = false := h r (List.mem_cons_self r rs)
    cases i with
    | zero =>
      simp only [dragstart, clearFirstDragging, if_pos]
      obtain ⟨a, b, c, d⟩ := r
      simp_all
    | succ n =>
      simp only [dragstart, clearFirstDragging, hr, Bool.false_eq_true,
        if_neg, ite_false]
      exact congrArg _ (ih n fun x hx => h x (List.mem_cons_of_mem r hx))

theorem gdaeStep_offset (box : Row → ℚ × ℚ) (y : ℚ) (c : Row) :
    y - (box c).1 - (box c).2 / 2 = y - mid box c := by
  simp only [mid]; ring

theorem foldl_gdaeStep_frozen (box : Row → ℚ × ℚ) (y : ℚ) (o : ℚ) (e : Row)
    (l : List Row) (h : ∀ c ∈ l, y - mid box c < o) :
    l.foldl (gdaeStep box y) (some (o, e)) = some (o, e) := by
  induction l with
  | nil => rfl
  | cons c cs ih =>
    have hc : y - mid box c < o := h c (List.mem_cons_self c cs)
    have hcond : ¬(y - (box c).1 - (box c).2 / 2 < 0 ∧
        o < y - (box c).1 - (box c).2 / 2) := by
      rw [gdaeStep_offset]
      exact fun hx => absurd hx.2 (not_lt.mpr hc.le)
    simp only [List.foldl_cons, gdaeStep, if_neg hcond]
    exact ih fun x hx => h x (List.mem_cons_of_mem c hx)

theorem gdae_eq_find (els : List Row) (box : Row → ℚ × ℚ) (y : ℚ)
    (h : els.Pairwise fun a b => mid box a < mid box b) :
    getDragAfterElement els box y =
      els.find? fun r => decide (y < mid box r) := by
  induction els with
  | nil => rfl
  | cons a l ih =>
    rw [List.pairwise_cons] at h
    obtain ⟨ha, hl⟩ := h
    by_cases hy : y < mid box a
    · have hya : y < (box a).1 + (box a).2 / 2 := by
        have h1 := hy
        rw [mid] at h1
        exact h1
      have hoff : y - (box a).1 - (box a).2 / 2 < 0 := by linarith
      have hstep : gdaeStep box y none a =
          some (y - (box a).1 - (box a).2 / 2, a) := if_pos hoff
      have hfrozen := foldl_gdaeStep_frozen box y
        (y - (box a).1 - (box a).2 / 2) a l (by
          intro c hc
          have hac : mid box a < mid box c := ha c hc
          rw [mid, mid] at hac
          rw [mid]
          linarith)
      simp only [getDragAfterElement, List.foldl_cons, hstep, hfrozen,
        List.find?_cons, decide_eq_true hy]
      rfl
    · have hya : (box a).1 + (box a).2 / 2 ≤ y := by
        have h1 := not_lt.mp hy
        rw [mid] at h1
        exact h1
      have hoff : ¬(y - (box a).1 - (box a).2 / 2 < 0) := by
        push_neg
        linarith
      have hstep : gdaeStep box y none a = none := if_neg hoff
      have hfa : (fun r => decide (y < mid box r)) a = false := by
        simp [hy]
      simp only [getDragAfterElement, List.foldl_cons, hstep, List.find?_cons,
        hfa]
      exact ih hl

theorem clearFirstDragging_length (l : List Row) :
    (clearFirstDragging l).length = l.length := by
  induction l with
  | nil => rfl
  | cons r rs ih =>
    by_cases h : r.dragging <;> simp [clearFirstDragging, h, ih]

theorem dragstart_length (l : List Row) (i : Nat) :
    (dragstart l i).length = l.length := by
  induction l generalizing i with
  | nil => rfl
  | cons r rs ih =>
    cases i with
    | zero => simp [dragstart]
    | succ n => simp [dragstart, ih]

theorem length_clearFirst_foldDrag (rows : List Row) (i : Nat)
    (events : List DragEvent) :
    (clearFirstDragging
      (events.foldl (fun s ev => dragover s ev.1 ev.2) (dragstart rows i))).length
      = rows.length := by
  rw [clearFirstDragging_length, (foldDrag_perm events (dragstart rows i)).length_eq,
    dragstart_length]

/-- C1: after drag-end of any drag sequence, the multiset of row identifiers
is the one from before the drag (no row is created or destroyed), every row
holding a position input carries its 1-based visual index as position, and —
when every row holds a position input — the position values are exactly the
contiguous sequence 1..N with no duplicates. -/
theorem c1_dragend_positions_invariant (rows : List Row) (i : Nat)
    (events : List DragEvent) :
    ((runDrag rows i events).map Row.id).Perm (rows.map Row.id) ∧
    (∀ (j : Nat) (r : Row), (runDrag rows i events)[j]? = some r →
      r.hasPosInput = true → r.posValue = j + 1) ∧
    ((∀ r ∈ rows, r.hasPosInput = true) →
      (runDrag rows i events).map Row.posValue = List.range' 1 rows.length ∧
      ((runDrag rows i events).map Row.posValue).Nodup) := by
  have hrun : runDrag rows i events =
      updatePositionsFrom 0 (clearFirstDragging
        (events.foldl (fun s ev => dragover s ev.1 ev.2) (dragstart rows i))) := rfl
  refine ⟨?_, ?_, ?_⟩
  · rw [hrun, map_id_updatePositionsFrom, map_id_clearFirstDragging]
    have hp := (foldDrag_perm events (dragstart rows i)).map Row.id
    rw [map_id_dragstart] at hp
    exact hp
  · intro j r hj hpi
    rw [hrun, updatePositionsFrom_getElem?] at hj
    obtain ⟨r0, hr0, hf⟩ := Option.map_eq_some'.mp hj
    by_cases h0 : r0.hasPosInput = true
    · rw [if_pos h0] at hf
      rw [← hf]
      simp
    · exfalso
      rw [if_neg h0] at hf
      rw [← hf] at hpi
      exact h0 hpi
  · intro hall
    have hallL : ∀ r ∈ clearFirstDragging
        (events.foldl (fun s ev => dragover s ev.1 ev.2) (dragstart rows i)),
        r.hasPosInput = true := by
      intro r hr
      have h1 : r.hasPosInput ∈ (clearFirstDragging
          (events.foldl (fun s ev => dragover s ev.1 ev.2)
            (dragstart rows i))).map Row.hasPosInput :=
        List.mem_map_of_mem Row.hasPosInput hr
      rw [map_hasPos_clearFirstDragging] at h1
      have h2 := ((foldDrag_perm events (dragstart rows i)).map
        Row.hasPosInput).mem_iff.mp h1
      rw [map_hasPos_dragstart] at h2
      obtain ⟨r0, hr0, he⟩ := List.mem_map.mp h2
      rw [← he]
      exact hall r0 hr0
    have hmap := updatePositionsFrom_map_posValue 0 _ hallL
    rw [hrun, hmap, length_clearFirst_foldDrag]
    exact ⟨rfl, List.nodup_range' _ _⟩

/-- Closed instance of C1: a drag of row C of the scenario rows with no
dragover movement, every hypothesis discharged by evaluation. -/
theorem c1_dragend_positions_invariant_witness :
    ((runDrag demoRows 2 []).map Row.id).Perm (demoRows.map Row.id) ∧
    (runDrag demoRows 2 []).map Row.posValue = List.range' 1 demoRows.length ∧
    rowA.posValue = 0 + 1 :=
  ⟨(c1_dragend_positions_invariant demoRows 2 []).1,
    ((c1_dragend_positions_invariant demoRows 2 []).2.2 (by decide)).1,
    (c1_dragend_positions_invariant demoRows 2 []).2.1 0 rowA (by decide)
      (by decide)⟩

theorem runDrag_demo_eval : runDrag demoRows 2 [(demoBox, 2)] = demoExpected := by
  norm_num [runDrag, dragend, dragover, dragstart, clearFirstDragging,
    updatePositions, updatePositionsFrom, getDragAfterElement, gdaeStep,
    insertBeforeFirst, demoRows, demoBox, demoExpected, rowA, rowB, rowC,
    List.find?, List.filter, List.erase, List.foldl, beq_iff_eq]

/-- C2: on a dragover at pointer height `y` over candidate rows laid out top
to bottom (strictly increasing vertical midpoints), `getDragAfterElement`
returns the first row whose midpoint lies strictly below `y` (`none` when no
midpoint does, in which case the dragged row is appended at the end); and in
the concrete scenario [A(pos1), B(pos2), C(pos3)], dragging C above A's
midpoint and ending the drag yields [C(pos1), A(pos2), B(pos3)]. -/
theorem c2_dragover_moves_before_first_below (els : List Row)
    (box : Row → ℚ × ℚ) (y : ℚ)
    (h : els.Pairwise fun a b => mid box a < mid box b) :
    getDragAfterElement els box y =
      (els.find? fun r => decide (y < mid box r)) ∧
    runDrag demoRows 2 [(demoBox, 2)] = demoExpected :=
  ⟨gdae_eq_find els box y h, runDrag_demo_eval⟩

/-- Closed instance of C2 at the scenario's two candidate rows, the layout
hypothesis discharged by computation. -/
theorem c2_dragover_moves_before_first_below_witness :
    getDragAfterElement [rowA, rowB] demoBox 2 =
      ([rowA, rowB].find? fun r => decide ((2 : ℚ) < mid demoBox r)) ∧
    runDrag demoRows 2 [(demoBox, 2)] = demoExpected :=
  c2_dragover_moves_before_first_below [rowA, rowB] demoBox 2 (by
    norm_num [List.pairwise_cons, mid, demoBox, rowA, rowB])

/-- C7: a drag with no movement (dragstart then immediately dragend, no
reorder) is the identity on rows whose positions are already synchronized
with visual order — the state every page reaches at load, when the script's
trailing `updatePositions()` call has run — so every position value is left
unchanged. -/
theorem c7_null_drag_identity (rows : List Row) (i : Nat)
    (hflags : ∀ r ∈ rows, r.dragging = false)
    (hnorm : updatePositions rows = rows) :
    runDrag rows i [] = rows := by
  show dragend (dragstart rows i) = rows
  unfold dragend
  rw [clearFirst_dragstart rows i hflags]
  exact hnorm

/-- Closed instance of C7 at the scenario rows. -/
theorem c7_null_drag_identity_witness : runDrag demoRows 1 [] = demoRows :=
  c7_null_drag_identity demoRows 1 (by decide) (by decide)

/-- C8: with zero non-dragged rows, `getDragAfterElement` reduces over an
empty candidate list and yields no target (total — nothing throws), and the
dragover handler appends the dragged row at the end, a no-op reorder. -/
theorem c8_empty_candidates_noop (box : Row → ℚ × ℚ) (y : ℚ) (r : Row)
    (h : r.dragging = true) :
    getDragAfterElement [] box y = none ∧ dragover [r] box y = [r] := by
  refine ⟨rfl, ?_⟩
  obtain ⟨a, b, c, d⟩ := r
  have hd : d = true := h
  subst hd
  simp [dragover, List.find?, List.filter, getDragAfterElement,
    List.erase_cons_head]

/-- Closed instance of C8 with a single dragged row present. -/
theorem c8_empty_candidates_noop_witness :
    getDragAfterElement [] demoBox 2 = none ∧
    dragover [⟨3, true, 3, true⟩] demoBox 2 = [⟨3, true, 3, true⟩] :=
  c8_empty_candidates_noop demoBox 2 ⟨3, true, 3, true⟩ rfl

/-- C9: every dragover is a permutation of the rows — the dragged node is
relocated in place, never copied or destroyed — so the multiset of rows, and
with it every row's position value, is untouched; positions change only at
drag-end. -/
theorem c9_dragover_only_reorders (rows : List Row) (box : Row → ℚ × ℚ)
    (y : ℚ) :
    (dragover rows box y).Perm rows ∧
    ((dragover rows box y).map Row.posValue).Perm (rows.map Row.posValue) :=
  ⟨dragover_perm_helper rows box y,
    (dragover_perm_helper rows box y).map Row.posValue⟩

/-- C3: in the save-then-add flow the add request appears in the trace only
when the save settled with a success status (a non-success or failed save
short-circuits before the add), the save request precedes the add request,
and with a submit button present the button is disabled right after the
handler starts and re-enabled exactly once, as the final action of the flow. -/
theorem c3_save_before_add (hasBtn : Bool) (save add : FetchRes) :
    (SEv.requestAdd ∈ submitFlow hasBtn save add →
      save = FetchRes.resp true) ∧
    (save ≠ FetchRes.resp true →
      SEv.requestAdd ∉ submitFlow hasBtn save add) ∧
    (SEv.requestAdd ∈ submitFlow hasBtn save add →
      (submitFlow hasBtn save add).indexOf SEv.requestSave <
        (submitFlow hasBtn save add).indexOf SEv.requestAdd) ∧
    (hasBtn = true →
      (submitFlow hasBtn save add).getLast? = some SEv.enableBtn ∧
      (submitFlow hasBtn save add).count SEv.enableBtn = 1 ∧
      SEv.disableBtn ∈ submitFlow hasBtn save add ∧
      (submitFlow hasBtn save add).indexOf SEv.disableBtn <
        (submitFlow hasBtn save add).indexOf SEv.requestSave) := by
  rcases save with _ | b <;> rcases add with _ | c <;> cases hasBtn <;>
    first
      | decide
      | (cases b <;> decide)
      | (cases c <;> decide)
      | (cases b <;> cases c <;> decide)

/-- Closed instance of C3: the success/success run orders save before add and
ends by re-enabling the button; a network-failed save never issues the add. -/
theorem c3_save_before_add_witness :
    ((submitFlow true (FetchRes.resp true) (FetchRes.resp true)).indexOf
        SEv.requestSave <
      (submitFlow true (FetchRes.resp true) (FetchRes.resp true)).indexOf
        SEv.requestAdd) ∧
    (submitFlow true (FetchRes.resp true) (FetchRes.resp true)).getLast? =
      some SEv.enableBtn ∧
    SEv.requestAdd ∉ submitFlow true FetchRes.netErr (FetchRes.resp true) :=
  ⟨(c3_save_before_add true (FetchRes.resp true) (FetchRes.resp true)).2.2.1
      (by decide),
    ((c3_save_before_add true (FetchRes.resp true) (FetchRes.resp true)).2.2.2
      rfl).1,
    (c3_save_before_add true FetchRes.netErr (FetchRes.resp true)).2.1
      (by decide)⟩

/-- C4 as stated is false: the removal click handler of edit.js awaits its
fetch with no try/catch, so a network failure (rejected fetch) produces no
user-facing alert — the rejection ends the handler silently.  Concretely,
with the endpoint configured and the dialog confirmed, a network failure
leaves the trace at exactly the one request, with neither alert. -/
theorem c4_network_failure_shows_no_alert :
    (removalClick demoRows true true FetchRes.netErr).2 = [REv.requestRemove] ∧
    REv.alertRemoveFailed ∉ (removalClick demoRows true true FetchRes.netErr).2 ∧
    REv.alertNoUrl ∉ (removalClick demoRows true true FetchRes.netErr).2 := by
  decide

/-- C4 (amended): on every removal attempt both failure kinds leave the rows
exactly as they were and cause no automatic retry (at most one request per
attempt); a server-rejected request shows a user-facing alert, but a network
failure shows none — its rejection is unhandled. -/
theorem c4_failure_handling (rows : List Row) (confirmed : Bool)
    (res : FetchRes) :
    (removalClick rows true confirmed res).1 = rows ∧
    (removalClick rows true confirmed res).2.count REv.requestRemove ≤ 1 ∧
    (res = FetchRes.resp false → confirmed = true →
      REv.alertRemoveFailed ∈ (removalClick rows true confirmed res).2) ∧
    (res = FetchRes.netErr →
      REv.alertRemoveFailed ∉ (removalClick rows true confirmed res).2 ∧
      REv.alertNoUrl ∉ (removalClick rows true confirmed res).2) := by
  cases confirmed <;> rcases res with _ | b <;>
    first
      | (cases b <;> simp [removalClick])
      | simp [removalClick]

/-- Closed instance of C4: the server-rejected attempt alerts, the
network-failed attempt does not. -/
theorem c4_failure_handling_witness :
    REv.alertRemoveFailed ∈
      (removalClick demoRows true true (FetchRes.resp false)).2 ∧
    REv.alertRemoveFailed ∉
      (removalClick demoRows true true FetchRes.netErr).2 :=
  ⟨(c4_failure_handling demoRows true (FetchRes.resp false)).2.2.1 rfl rfl,
    ((c4_failure_handling demoRows true FetchRes.netErr).2.2.2 rfl).1⟩

/-- C5: with the removal endpoint configured, the removal request is in the
trace iff the confirm dialog was accepted; cancelling issues nothing and
leaves the rows untouched; the rows are never mutated by the handler itself;
a success response reloads, a non-success response does not.  The same holds
for the plan-delete handler of index.js given a selected plan. -/
theorem c5_removal_confirm_gate (rows : List Row) (confirmed : Bool)
    (res : FetchRes) :
    (REv.requestRemove ∈ (removalClick rows true confirmed res).2 ↔
      confirmed = true) ∧
    (confirmed = false → removalClick rows true confirmed res = (rows, [])) ∧
    (removalClick rows true confirmed res).1 = rows ∧
    (res = FetchRes.resp true → confirmed = true →
      REv.reload ∈ (removalClick rows true confirmed res).2) ∧
    (res = FetchRes.resp false →
      REv.reload ∉ (removalClick rows true confirmed res).2) ∧
    (DEv.requestDelete ∈ deleteClick true confirmed res ↔ confirmed = true) ∧
    (confirmed = false → deleteClick true confirmed res = []) ∧
    (res = FetchRes.resp true → confirmed = true →
      DEv.reload ∈ deleteClick true confirmed res) ∧
    (res = FetchRes.resp false → DEv.reload ∉ deleteClick true confirmed res) := by
  cases confirmed <;> rcases res with _ | b <;>
    first
      | (cases b <;> simp [removalClick, deleteClick])
      | simp [removalClick, deleteClick]

/-- Closed instance of C5: confirmed success reloads in both handlers,
cancelling leaves the rows and issues nothing. -/
theorem c5_removal_confirm_gate_witness :
    REv.reload ∈ (removalClick demoRows true true (FetchRes.resp true)).2 ∧
    DEv.reload ∈ deleteClick true true (FetchRes.resp true) ∧
    removalClick demoRows true false (FetchRes.resp true) = (demoRows, []) :=
  ⟨(c5_removal_confirm_gate demoRows true (FetchRes.resp true)).2.2.2.1
      rfl rfl,
    (c5_removal_confirm_gate demoRows true (FetchRes.resp true)).2.2.2.2.2.2.2.1
      rfl rfl,
    (c5_removal_confirm_gate demoRows false (FetchRes.resp true)).2.1 rfl⟩

/-- C6: the sets-field clamp maps -5 to 0, 150 to 99 and keeps 42; in
general a parsed numeric value below 0 writes "0", above 99 writes "99", and
anything in range leaves the field text untouched. -/
theorem c6_sets_clamp :
    clampSets "-5" = "0" ∧ clampSets "150" = "99" ∧ clampSets "42" = "42" ∧
    ∀ (value : String) (n : Int), jsNumber value = some n →
      clampSets value = if n < 0 then "0" else if 99 < n then "99" else value := by
  refine ⟨by decide, by decide, by decide, ?_⟩
  intro value n hn
  by_cases hv : value = ""
  · subst hv
    have h0 : some (0 : Int) = some n := hn
    have hn0 : n = 0 := by
      injection h0 with h
      omega
    subst hn0
    norm_num
    decide
  · simp only [clampSets, if_neg hv, hn, numLt, numGt, decide_eq_true_eq]
    by_cases h1 : n < 0
    · have h2 : ¬99 < n := by omega
      simp [h1, h2]
    · by_cases h2 : 99 < n
      · simp [h1, h2]
      · simp [h1, h2]

/-- Closed instance of C6 at the out-of-range input 150. -/
theorem c6_sets_clamp_witness :
    jsNumber "150" = some 150 ∧
    clampSets "150" =
      if (150 : Int) < 0 then "0" else if 99 < (150 : Int) then "99" else "150" :=
  ⟨by decide, (c6_sets_clamp).2.2.2 "150" 150 (by decide)⟩

/-- C10: a nonempty sets-field value that does not parse as a number fails
both clamp guards (NaN compares false) and is left unchanged; a value whose
numeric interpretation already lies in [0, 99] is returned
character-for-character; hence the handler does not leave a numeral in 0..99
in every case — "abc" stays, and is still not numeric. -/
theorem c10_nan_and_in_range_unchanged :
    (∀ value : String, value ≠ "" → jsNumber value = none →
      clampSets value = value) ∧
    (∀ (value : String) (n : Int), jsNumber value = some n → 0 ≤ n → n ≤ 99 →
      clampSets value = value) ∧
    clampSets "abc" = "abc" ∧
    jsNumber (clampSets "abc") = none := by
  refine ⟨?_, ?_, by decide, by decide⟩
  · intro value hne hnone
    simp [clampSets, if_neg hne, hnone, numLt, numGt]
  · intro value n hn h0 h99
    by_cases hv : value = ""
    · subst hv
      decide
    · simp only [clampSets, if_neg hv, hn, numLt, numGt, decide_eq_true_eq]
      have h1 : ¬n < 0 := by omega
      have h2 : ¬99 < n := by omega
      simp [h1, h2]

/-- Closed instance of C10 at the non-numeric input "abc" and the in-range
input "42". -/
theorem c10_nan_and_in_range_unchanged_witness :
    clampSets "abc" = "abc" ∧ clampSets "42" = "42" :=
  ⟨(c10_nan_and_in_range_unchanged).1 "abc" (by decide) (by decide),
    (c10_nan_and_in_range_unchanged).2.1 "42" 42 (by decide) (by decide)
      (by decide)⟩

end FitLog
